import Mathlib

/-!
# Shallow embedding of `PrivateYieldPredictorFHE.sol`

The contract `src/contracts/PrivateYieldPredictorFHE.sol` is embedded as a
pure state-transition system.  Machine scalars (`uint256`, `address`,
`bytes32`, and the opaque ciphertext handles `euint32`/`euint64`) are
modelled as `Nat`; an `address` value is a `Nat` below `2 ^ 160` and a
zero `bytes32` is the `Nat` `0`.  A Solidity `mapping` is an association
list read through a default value (the zero value of the value type),
exactly the mapping semantics of the EVM.  Each external function becomes
a function `... → YieldState → Except String YieldState`; `require(c, m)`
becomes a branch returning `Except.error m`, and EVM revert semantics
(a failed call leaves storage untouched) is captured by `step`, which
discards the error and keeps the pre-state.

External collaborators are modelled as parameters: the request id
returned by `FHE.requestDecryption` is an argument of the request
operations, and `FHE.checkSignatures` is an oracle predicate
`vp : requestId → cleartexts → proof → Bool` whose `false` answer
reverts.  ABI-decoded cleartexts (`abi.decode(cleartexts, (string[]))`)
are modelled directly as the decoded `List String`.
-/

/-- Maximum value of a Solidity `uint256`; `+= 1` past this reverts
(checked arithmetic of Solidity 0.8). -/
def UINT256_MAX : Nat := 2 ^ 256 - 1

/-- `struct EncryptedSensorData` (contract lines 14–22). -/
structure EncryptedSensorData where
  id : Nat
  uploader : Nat
  encryptedSoilMoisture : Nat
  encryptedSoilPh : Nat
  encryptedTemperature : Nat
  encryptedHumidity : Nat
  timestamp : Nat
deriving Repr, DecidableEq

/-- `struct EncryptedModelUpdate` (contract lines 25–30). -/
structure EncryptedModelUpdate where
  id : Nat
  contributor : Nat
  encryptedWeightsHash : Nat
  timestamp : Nat
deriving Repr, DecidableEq

/-- `struct DecryptedSuggestion` (contract lines 33–36). -/
structure DecryptedSuggestion where
  advice : String
  applied : Bool
deriving Repr, DecidableEq

/-- Zero value of `EncryptedModelUpdate`: what a Solidity mapping returns
for an absent key. -/
def defaultModelUpdate : EncryptedModelUpdate := ⟨0, 0, 0, 0⟩

/-- Zero value of `DecryptedSuggestion`: empty advice, `applied = false`. -/
def defaultSuggestion : DecryptedSuggestion := ⟨"", false⟩

/-- Read of a Solidity `mapping` modelled as an association list: the most
recent write to the key wins, an absent key yields the zero value `d`. -/
def mGet {V : Type} (d : V) : List (Nat × V) → Nat → V
  | [], _ => d
  | (k', v) :: rest, k => if k = k' then v else mGet d rest k

/-- Write to a Solidity `mapping`: the new binding shadows older ones. -/
def mSet {V : Type} (m : List (Nat × V)) (k : Nat) (v : V) : List (Nat × V) :=
  (k, v) :: m

/-- The events the contract can emit (contract lines 49–54). -/
inductive Event where
  | SensorDataSubmitted (id uploader timestamp : Nat)
  | ModelUpdateSubmitted (id contributor timestamp : Nat)
  | AggregationDecryptionRequested (reqId aggId : Nat)
  | AggregationDecrypted (aggId : Nat)
  | SuggestionDecryptionRequested (reqId beneficiary : Nat)
  | SuggestionDecrypted (beneficiary : Nat)
deriving Repr, DecidableEq

/-- The whole storage of the contract, plus the chronological log of
emitted events. -/
structure YieldState where
  sensorUploadCount : Nat
  modelUpdateCount : Nat
  sensorData : List (Nat × EncryptedSensorData)
  modelUpdates : List (Nat × EncryptedModelUpdate)
  suggestions : List (Nat × DecryptedSuggestion)
  requestToEntityId : List (Nat × Nat)
  requestToContext : List (Nat × Nat)
  events : List Event
deriving Repr, DecidableEq

/-- State at deployment: counters zero, all mappings empty. -/
def initialState : YieldState := ⟨0, 0, [], [], [], [], [], []⟩

namespace FHE

/-- `FHE.toBytes32` re-interprets an opaque ciphertext handle as a
`bytes32`; on our `Nat` model both are the same number. -/
def toBytes32 (handle : Nat) : Nat := handle

end FHE

/-- The proof oracle behind `FHE.checkSignatures`: does this
(requestId, cleartexts, proof) triple verify? -/
abbrev ProofOracle := Nat → List String → Nat → Bool

/-- `submitEncryptedSensorData` (contract lines 68–88). -/
def submitEncryptedSensorData (sender timestamp : Nat)
    (encryptedSoilMoisture encryptedSoilPh encryptedTemperature encryptedHumidity : Nat)
    (st : YieldState) : Except String YieldState :=
  if st.sensorUploadCount + 1 > UINT256_MAX then .error "overflow"
  else
    let newId := st.sensorUploadCount + 1
    .ok { st with
      sensorUploadCount := newId
      sensorData := mSet st.sensorData newId
        ⟨newId, sender, encryptedSoilMoisture, encryptedSoilPh,
          encryptedTemperature, encryptedHumidity, timestamp⟩
      events := st.events ++ [.SensorDataSubmitted newId sender timestamp] }

/-- `submitEncryptedModelUpdate` (contract lines 91–103). -/
def submitEncryptedModelUpdate (sender timestamp encryptedWeightsHash : Nat)
    (st : YieldState) : Except String YieldState :=
  if st.modelUpdateCount + 1 > UINT256_MAX then .error "overflow"
  else
    let newId := st.modelUpdateCount + 1
    .ok { st with
      modelUpdateCount := newId
      modelUpdates := mSet st.modelUpdates newId
        ⟨newId, sender, encryptedWeightsHash, timestamp⟩
      events := st.events ++ [.ModelUpdateSubmitted newId sender timestamp] }

/-- The ciphertext references collected by `requestAggregationDecryption`
(contract lines 112–116): an absent update id contributes the zero
record's handle — no existence check is made. -/
def aggregationCiphertexts (st : YieldState) (updateIds : List Nat) : List Nat :=
  updateIds.map fun i =>
    FHE.toBytes32 (mGet defaultModelUpdate st.modelUpdates i).encryptedWeightsHash

/-- `requestAggregationDecryption` (contract lines 107–124).  `reqId` is
the id returned by the external `FHE.requestDecryption`, to which the
collected ciphertexts are forwarded. -/
def requestAggregationDecryption (updateIds : List Nat) (context : Nat) (reqId : Nat)
    (st : YieldState) : Except String YieldState :=
  if updateIds.length = 0 then .error "empty"
  else
    let _ciphertexts := aggregationCiphertexts st updateIds
    .ok { st with
      requestToEntityId := mSet st.requestToEntityId reqId 0
      requestToContext := mSet st.requestToContext reqId context
      events := st.events ++ [.AggregationDecryptionRequested reqId 0] }

/-- `decryptAggregatedModel` (contract lines 127–140): the callback for
aggregated model decryption.  It validates the stored context, verifies
the proof, decodes the cleartexts and only emits an event. -/
def decryptAggregatedModel (vp : ProofOracle) (requestId : Nat)
    (cleartexts : List String) (proof : Nat) (st : YieldState) :
    Except String YieldState :=
  let context := mGet 0 st.requestToContext requestId
  if context = 0 then .error "invalid"
  else if vp requestId cleartexts proof then
    let _results := cleartexts
    .ok { st with events := st.events ++ [.AggregationDecrypted 0] }
  else .error "checkSignatures"

/-- `requestSuggestionDecryption` (contract lines 143–153).  The
`uint256(uint160(beneficiary))` cast is the identity on an address
value (a `Nat` below `2 ^ 160`). -/
def requestSuggestionDecryption (beneficiary encryptedSuggestion reqId : Nat)
    (st : YieldState) : Except String YieldState :=
  let _ciphertexts := [FHE.toBytes32 encryptedSuggestion]
  .ok { st with
    requestToEntityId := mSet st.requestToEntityId reqId beneficiary
    requestToContext := mSet st.requestToContext reqId 0
    events := st.events ++ [.SuggestionDecryptionRequested reqId beneficiary] }

/-- `decryptSuggestion` (contract lines 156–171): the callback for
suggestion decryption.  `address(uint160(beneficiaryKey))` truncates the
stored key to 160 bits. -/
def decryptSuggestion (vp : ProofOracle) (requestId : Nat)
    (cleartexts : List String) (proof : Nat) (st : YieldState) :
    Except String YieldState :=
  let beneficiaryKey := mGet 0 st.requestToEntityId requestId
  if beneficiaryKey = 0 then .error "invalid"
  else if vp requestId cleartexts proof then
    let results := cleartexts
    let advice := if results.length > 0 then results.getD 0 "" else ""
    let beneficiary := beneficiaryKey % 2 ^ 160
    .ok { st with
      suggestions := mSet st.suggestions beneficiary ⟨advice, false⟩
      events := st.events ++ [.SuggestionDecrypted beneficiary] }
  else .error "checkSignatures"

/-- `getSuggestion` (contract lines 174–177): a view function. -/
def getSuggestion (st : YieldState) (beneficiary : Nat) : String × Bool :=
  let s := mGet defaultSuggestion st.suggestions beneficiary
  (s.advice, s.applied)

/-- One externally-triggered transaction, with its environment data
(`msg.sender`, `block.timestamp`, the oracle-allocated request id). -/
inductive Op where
  | submitSensor (sender timestamp m ph t h : Nat)
  | submitUpdate (sender timestamp w : Nat)
  | reqAgg (updateIds : List Nat) (context reqId : Nat)
  | reqSugg (beneficiary encryptedSuggestion reqId : Nat)
  | decAgg (requestId : Nat) (cleartexts : List String) (proof : Nat)
  | decSugg (requestId : Nat) (cleartexts : List String) (proof : Nat)
deriving Repr, DecidableEq

/-- Dispatch one transaction to the embedded contract function. -/
def exec (vp : ProofOracle) (op : Op) (st : YieldState) : Except String YieldState :=
  match op with
  | .submitSensor sender timestamp m ph t h =>
      submitEncryptedSensorData sender timestamp m ph t h st
  | .submitUpdate sender timestamp w =>
      submitEncryptedModelUpdate sender timestamp w st
  | .reqAgg updateIds context reqId =>
      requestAggregationDecryption updateIds context reqId st
  | .reqSugg beneficiary encryptedSuggestion reqId =>
      requestSuggestionDecryption beneficiary encryptedSuggestion reqId st
  | .decAgg requestId cleartexts proof =>
      decryptAggregatedModel vp requestId cleartexts proof st
  | .decSugg requestId cleartexts proof =>
      decryptSuggestion vp requestId cleartexts proof st

/-- EVM transaction semantics: a reverted call leaves storage unchanged. -/
def step (vp : ProofOracle) (st : YieldState) (op : Op) : YieldState :=
  match exec vp op st with
  | .ok st' => st'
  | .error _ => st

/-- Run a sequence of transactions from a state. -/
def run (vp : ProofOracle) (ops : List Op) (st : YieldState) : YieldState :=
  ops.foldl (step vp) st

/-- The storage part of a state: the state with the event log erased.
Two states with equal `storageView` agree on every storage field, so a
call that leaves `storageView` unchanged wrote nothing. -/
def storageView (st : YieldState) : YieldState := { st with events := [] }

/-- The request id (if any) that a transaction binds in the correlation
mappings: only the two request operations write them. -/
def issuedId : Op → Option Nat
  | .reqAgg _ _ reqId => some reqId
  | .reqSugg _ _ reqId => some reqId
  | _ => none

/-- All request ids bound over a transaction sequence. -/
def issuedIds (ops : List Op) : List Nat := ops.filterMap issuedId

/-- Sensor-record ids assigned over a run, read off the event log in
chronological order. -/
def sensorIdsOf (evs : List Event) : List Nat :=
  evs.filterMap fun e =>
    match e with
    | .SensorDataSubmitted id _ _ => some id
    | _ => none

/-- Model-update ids assigned over a run, read off the event log in
chronological order. -/
def updateIdsOf (evs : List Event) : List Nat :=
  evs.filterMap fun e =>
    match e with
    | .ModelUpdateSubmitted id _ _ => some id
    | _ => none

/-- An oracle that accepts every proof (used for concrete scenarios). -/
def vpAll : ProofOracle := fun _ _ _ => true

/-- An oracle that accepts exactly the proofs equal to `1` (used for
concrete scenarios exercising proof failure then success). -/
def vpOne : ProofOracle := fun _ _ proof => proof = 1

/-! ## Basic lemmas about the mapping model and the transaction layer -/

theorem mGet_mSet_self {V : Type} (d : V) (m : List (Nat × V)) (k : Nat) (v : V) :
    mGet d (mSet m k v) k = v := by
  simp [mGet, mSet]

theorem mGet_mSet_ne {V : Type} (d : V) (m : List (Nat × V)) {k k' : Nat} (v : V)
    (h : k ≠ k') : mGet d (mSet m k' v) k = mGet d m k := by
  simp [mGet, mSet, h]

theorem step_eq_of_ok {vp : ProofOracle} {op : Op} {st st' : YieldState}
    (h : exec vp op st = .ok st') : step vp st op = st' := by
  simp [step, h]

theorem step_eq_of_error {vp : ProofOracle} {op : Op} {st : YieldState} {msg : String}
    (h : exec vp op st = .error msg) : step vp st op = st := by
  simp [step, h]

theorem run_append (vp : ProofOracle) (ops₁ ops₂ : List Op) (st : YieldState) :
    run vp (ops₁ ++ ops₂) st = run vp ops₂ (run vp ops₁ st) := by
  simp [run, List.foldl_append]

theorem run_cons (vp : ProofOracle) (op : Op) (ops : List Op) (st : YieldState) :
    run vp (op :: ops) st = run vp ops (step vp st op) := rfl

theorem run_nil (vp : ProofOracle) (st : YieldState) : run vp [] st = st := rfl

/-! ## Success characterizations of each contract function -/

theorem submitEncryptedSensorData_ok_iff (sender timestamp m ph t h : Nat)
    (st st' : YieldState) :
    submitEncryptedSensorData sender timestamp m ph t h st = .ok st' ↔
      ¬ st.sensorUploadCount + 1 > UINT256_MAX ∧
      st' = { st with
        sensorUploadCount := st.sensorUploadCount + 1
        sensorData := mSet st.sensorData (st.sensorUploadCount + 1)
          ⟨st.sensorUploadCount + 1, sender, m, ph, t, h, timestamp⟩
        events := st.events ++
          [.SensorDataSubmitted (st.sensorUploadCount + 1) sender timestamp] } := by
  unfold submitEncryptedSensorData
  dsimp only
  split
  · rename_i hover; simp [hover]
  · rename_i hover; simp [hover, eq_comm]

theorem submitEncryptedModelUpdate_ok_iff (sender timestamp w : Nat)
    (st st' : YieldState) :
    submitEncryptedModelUpdate sender timestamp w st = .ok st' ↔
      ¬ st.modelUpdateCount + 1 > UINT256_MAX ∧
      st' = { st with
        modelUpdateCount := st.modelUpdateCount + 1
        modelUpdates := mSet st.modelUpdates (st.modelUpdateCount + 1)
          ⟨st.modelUpdateCount + 1, sender, w, timestamp⟩
        events := st.events ++
          [.ModelUpdateSubmitted (st.modelUpdateCount + 1) sender timestamp] } := by
  unfold submitEncryptedModelUpdate
  dsimp only
  split
  · rename_i hover; simp [hover]
  · rename_i hover; simp [hover, eq_comm]

theorem requestAggregationDecryption_ok_iff (updateIds : List Nat) (context reqId : Nat)
    (st st' : YieldState) :
    requestAggregationDecryption updateIds context reqId st = .ok st' ↔
      updateIds ≠ [] ∧
      st' = { st with
        requestToEntityId := mSet st.requestToEntityId reqId 0
        requestToContext := mSet st.requestToContext reqId context
        events := st.events ++ [.AggregationDecryptionRequested reqId 0] } := by
  unfold requestAggregationDecryption
  dsimp only
  split
  · rename_i hlen; simp [List.length_eq_zero.mp hlen]
  · rename_i hlen
    have : updateIds ≠ [] := fun hnil => hlen (by simp [hnil])
    simp [this, eq_comm]

theorem requestAggregationDecryption_empty (context reqId : Nat) (st : YieldState) :
    requestAggregationDecryption [] context reqId st = .error "empty" := rfl

theorem requestSuggestionDecryption_eq (beneficiary encryptedSuggestion reqId : Nat)
    (st : YieldState) :
    requestSuggestionDecryption beneficiary encryptedSuggestion reqId st =
      .ok { st with
        requestToEntityId := mSet st.requestToEntityId reqId beneficiary
        requestToContext := mSet st.requestToContext reqId 0
        events := st.events ++
          [.SuggestionDecryptionRequested reqId beneficiary] } := rfl

theorem decryptAggregatedModel_ok_iff (vp : ProofOracle) (rid : Nat) (c : List String)
    (p : Nat) (st st' : YieldState) :
    decryptAggregatedModel vp rid c p st = .ok st' ↔
      mGet 0 st.requestToContext rid ≠ 0 ∧ vp rid c p = true ∧
      st' = { st with events := st.events ++ [.AggregationDecrypted 0] } := by
  unfold decryptAggregatedModel
  dsimp only
  split
  · rename_i h; simp [h]
  · split
    · rename_i h hvp; simp [h, hvp, eq_comm]
    · rename_i h hvp; simp [h, hvp]

theorem decryptSuggestion_ok_iff (vp : ProofOracle) (rid : Nat) (c : List String)
    (p : Nat) (st st' : YieldState) :
    decryptSuggestion vp rid c p st = .ok st' ↔
      mGet 0 st.requestToEntityId rid ≠ 0 ∧ vp rid c p = true ∧
      st' = { st with
        suggestions := mSet st.suggestions (mGet 0 st.requestToEntityId rid % 2 ^ 160)
          ⟨if c.length > 0 then c.getD 0 "" else "", false⟩
        events := st.events ++
          [.SuggestionDecrypted (mGet 0 st.requestToEntityId rid % 2 ^ 160)] } := by
  unfold decryptSuggestion
  dsimp only
  split
  · rename_i h; simp [h]
  · split
    · rename_i h hvp; simp [h, hvp, eq_comm]
    · rename_i h hvp; simp [h, hvp]

theorem decryptAggregatedModel_invalid (vp : ProofOracle) (rid : Nat) (c : List String)
    (p : Nat) (st : YieldState) (h : mGet 0 st.requestToContext rid = 0) :
    decryptAggregatedModel vp rid c p st = .error "invalid" := by
  unfold decryptAggregatedModel
  dsimp only
  split
  · rfl
  · rename_i hne; exact absurd h hne

theorem decryptSuggestion_invalid (vp : ProofOracle) (rid : Nat) (c : List String)
    (p : Nat) (st : YieldState) (h : mGet 0 st.requestToEntityId rid = 0) :
    decryptSuggestion vp rid c p st = .error "invalid" := by
  unfold decryptSuggestion
  dsimp only
  split
  · rfl
  · rename_i hne; exact absurd h hne

/-! ## Preservation of correlation bindings -/

theorem issuedIds_cons (op : Op) (ops : List Op) (rid : Nat) :
    rid ∈ issuedIds (op :: ops) ↔ issuedId op = some rid ∨ rid ∈ issuedIds ops := by
  cases hi : issuedId op with
  | none => simp [issuedIds, List.filterMap_cons, hi]
  | some a =>
    simp only [issuedIds, List.filterMap_cons, hi, List.mem_cons, Option.some.injEq]
    exact or_congr eq_comm Iff.rfl

/-- A transaction that does not bind `rid` in the correlation mappings
leaves both lookups at `rid` unchanged: submissions and the two callbacks
never write them, and a request writes only its own request id. -/
theorem bindings_preserved (vp : ProofOracle) (st : YieldState) (op : Op) (rid : Nat)
    (h : issuedId op ≠ some rid) :
    mGet 0 (step vp st op).requestToContext rid = mGet 0 st.requestToContext rid ∧
    mGet 0 (step vp st op).requestToEntityId rid = mGet 0 st.requestToEntityId rid := by
  cases hE : exec vp op st with
  | error msg => rw [step_eq_of_error hE]; exact ⟨rfl, rfl⟩
  | ok st' =>
    rw [step_eq_of_ok hE]
    cases op with
    | submitSensor sender timestamp m ph t hu =>
        simp only [exec] at hE
        obtain ⟨-, rfl⟩ := (submitEncryptedSensorData_ok_iff _ _ _ _ _ _ _ _).mp hE
        exact ⟨rfl, rfl⟩
    | submitUpdate sender timestamp w =>
        simp only [exec] at hE
        obtain ⟨-, rfl⟩ := (submitEncryptedModelUpdate_ok_iff _ _ _ _ _).mp hE
        exact ⟨rfl, rfl⟩
    | reqAgg updateIds context reqId =>
        simp only [issuedId, ne_eq, Option.some.injEq] at h
        simp only [exec] at hE
        obtain ⟨-, rfl⟩ := (requestAggregationDecryption_ok_iff _ _ _ _ _).mp hE
        exact ⟨mGet_mSet_ne _ _ _ (Ne.symm h), mGet_mSet_ne _ _ _ (Ne.symm h)⟩
    | reqSugg beneficiary enc reqId =>
        simp only [issuedId, ne_eq, Option.some.injEq] at h
        simp only [exec, requestSuggestionDecryption_eq, Except.ok.injEq] at hE
        subst hE
        exact ⟨mGet_mSet_ne _ _ _ (Ne.symm h), mGet_mSet_ne _ _ _ (Ne.symm h)⟩
    | decAgg reqId c p =>
        simp only [exec] at hE
        obtain ⟨-, -, rfl⟩ := (decryptAggregatedModel_ok_iff _ _ _ _ _ _).mp hE
        exact ⟨rfl, rfl⟩
    | decSugg reqId c p =>
        simp only [exec] at hE
        obtain ⟨-, -, rfl⟩ := (decryptSuggestion_ok_iff _ _ _ _ _ _).mp hE
        exact ⟨rfl, rfl⟩

/-- `bindings_preserved` lifted to a whole run that never binds `rid`. -/
theorem bindings_preserved_run (vp : ProofOracle) (ops : List Op) (st : YieldState)
    (rid : Nat) (h : rid ∉ issuedIds ops) :
    mGet 0 (run vp ops st).requestToContext rid = mGet 0 st.requestToContext rid ∧
    mGet 0 (run vp ops st).requestToEntityId rid = mGet 0 st.requestToEntityId rid := by
  induction ops generalizing st with
  | nil => exact ⟨rfl, rfl⟩
  | cons op ops ih =>
    rw [run_cons]
    have hsplit : ¬ (issuedId op = some rid ∨ rid ∈ issuedIds ops) :=
      fun hc => h ((issuedIds_cons op ops rid).mpr hc)
    push_neg at hsplit
    obtain ⟨h1, h2⟩ := hsplit
    obtain ⟨hc, he⟩ := bindings_preserved vp st op rid h1
    obtain ⟨hc', he'⟩ := ih (step vp st op) h2
    exact ⟨hc'.trans hc, he'.trans he⟩

/-- A request id never bound by any transaction of a run from deployment
has both correlation lookups at their zero default. -/
theorem bindings_zero_of_not_issued (vp : ProofOracle) (ops : List Op) (rid : Nat)
    (h : rid ∉ issuedIds ops) :
    mGet 0 (run vp ops initialState).requestToContext rid = 0 ∧
    mGet 0 (run vp ops initialState).requestToEntityId rid = 0 :=
  bindings_preserved_run vp ops initialState rid h

/-! ## Identity assignment over the event log -/

theorem sensorIdsOf_append (evs evs' : List Event) :
    sensorIdsOf (evs ++ evs') = sensorIdsOf evs ++ sensorIdsOf evs' :=
  List.filterMap_append _ _ _

theorem updateIdsOf_append (evs evs' : List Event) :
    updateIdsOf (evs ++ evs') = updateIdsOf evs ++ updateIdsOf evs' :=
  List.filterMap_append _ _ _

/-- The id streams recorded in the event log mirror the two counters. -/
def assignedInvariant (st : YieldState) : Prop :=
  sensorIdsOf st.events = List.range' 1 st.sensorUploadCount ∧
  updateIdsOf st.events = List.range' 1 st.modelUpdateCount

theorem assignedInvariant_step (vp : ProofOracle) (op : Op) (st : YieldState)
    (h : assignedInvariant st) : assignedInvariant (step vp st op) := by
  obtain ⟨h1, h2⟩ := h
  cases hE : exec vp op st with
  | error msg => rw [step_eq_of_error hE]; exact ⟨h1, h2⟩
  | ok st' =>
    rw [step_eq_of_ok hE]
    cases op with
    | submitSensor sender timestamp m ph t hu =>
        simp only [exec] at hE
        obtain ⟨-, rfl⟩ := (submitEncryptedSensorData_ok_iff _ _ _ _ _ _ _ _).mp hE
        refine ⟨?_, ?_⟩
        · show sensorIdsOf (st.events ++ _) = _
          rw [sensorIdsOf_append, h1, List.range'_1_concat]
          simp [sensorIdsOf, Nat.add_comm]
        · show updateIdsOf (st.events ++ _) = _
          rw [updateIdsOf_append, h2]
          simp [updateIdsOf]
    | submitUpdate sender timestamp w =>
        simp only [exec] at hE
        obtain ⟨-, rfl⟩ := (submitEncryptedModelUpdate_ok_iff _ _ _ _ _).mp hE
        refine ⟨?_, ?_⟩
        · show sensorIdsOf (st.events ++ _) = _
          rw [sensorIdsOf_append, h1]
          simp [sensorIdsOf]
        · show updateIdsOf (st.events ++ _) = _
          rw [updateIdsOf_append, h2, List.range'_1_concat]
          simp [updateIdsOf, Nat.add_comm]
    | reqAgg updateIds context reqId =>
        simp only [exec] at hE
        obtain ⟨-, rfl⟩ := (requestAggregationDecryption_ok_iff _ _ _ _ _).mp hE
        refine ⟨?_, ?_⟩
        · show sensorIdsOf (st.events ++ _) = _
          rw [sensorIdsOf_append, h1]; simp [sensorIdsOf]
        · show updateIdsOf (st.events ++ _) = _
          rw [updateIdsOf_append, h2]; simp [updateIdsOf]
    | reqSugg beneficiary enc reqId =>
        simp only [exec, requestSuggestionDecryption_eq, Except.ok.injEq] at hE
        subst hE
        refine ⟨?_, ?_⟩
        · show sensorIdsOf (st.events ++ _) = _
          rw [sensorIdsOf_append, h1]; simp [sensorIdsOf]
        · show updateIdsOf (st.events ++ _) = _
          rw [updateIdsOf_append, h2]; simp [updateIdsOf]
    | decAgg reqId c p =>
        simp only [exec] at hE
        obtain ⟨-, -, rfl⟩ := (decryptAggregatedModel_ok_iff _ _ _ _ _ _).mp hE
        refine ⟨?_, ?_⟩
        · show sensorIdsOf (st.events ++ _) = _
          rw [sensorIdsOf_append, h1]; simp [sensorIdsOf]
        · show updateIdsOf (st.events ++ _) = _
          rw [updateIdsOf_append, h2]; simp [updateIdsOf]
    | decSugg reqId c p =>
        simp only [exec] at hE
        obtain ⟨-, -, rfl⟩ := (decryptSuggestion_ok_iff _ _ _ _ _ _).mp hE
        refine ⟨?_, ?_⟩
        · show sensorIdsOf (st.events ++ _) = _
          rw [sensorIdsOf_append, h1]; simp [sensorIdsOf]
        · show updateIdsOf (st.events ++ _) = _
          rw [updateIdsOf_append, h2]; simp [updateIdsOf]

theorem assignedInvariant_run (vp : ProofOracle) (ops : List Op) (st : YieldState)
    (h : assignedInvariant st) : assignedInvariant (run vp ops st) := by
  induction ops generalizing st with
  | nil => exact h
  | cons op ops ih => exact ih (step vp st op) (assignedInvariant_step vp op st h)

theorem assignedInvariant_initial : assignedInvariant initialState := ⟨rfl, rfl⟩

theorem sensorIdsOf_step_submitUpdate (vp : ProofOracle) (st : YieldState)
    (sender timestamp w : Nat) :
    sensorIdsOf (step vp st (Op.submitUpdate sender timestamp w)).events =
      sensorIdsOf st.events := by
  cases hE : exec vp (Op.submitUpdate sender timestamp w) st with
  | error msg => rw [step_eq_of_error hE]
  | ok st' =>
    rw [step_eq_of_ok hE]
    simp only [exec] at hE
    obtain ⟨-, rfl⟩ := (submitEncryptedModelUpdate_ok_iff _ _ _ _ _).mp hE
    show sensorIdsOf (st.events ++ _) = _
    rw [sensorIdsOf_append]
    simp [sensorIdsOf]

theorem updateIdsOf_step_submitSensor (vp : ProofOracle) (st : YieldState)
    (sender timestamp m ph t hu : Nat) :
    updateIdsOf (step vp st (Op.submitSensor sender timestamp m ph t hu)).events =
      updateIdsOf st.events := by
  cases hE : exec vp (Op.submitSensor sender timestamp m ph t hu) st with
  | error msg => rw [step_eq_of_error hE]
  | ok st' =>
    rw [step_eq_of_ok hE]
    simp only [exec] at hE
    obtain ⟨-, rfl⟩ := (submitEncryptedSensorData_ok_iff _ _ _ _ _ _ _ _).mp hE
    show updateIdsOf (st.events ++ _) = _
    rw [updateIdsOf_append]
    simp [updateIdsOf]

/-! ## Invariants of the suggestion store -/

/-- Transactions only append to the event log. -/
theorem events_monotone (vp : ProofOracle) (op : Op) (st : YieldState) {e : Event}
    (h : e ∈ st.events) : e ∈ (step vp st op).events := by
  cases hE : exec vp op st with
  | error msg => rw [step_eq_of_error hE]; exact h
  | ok st' =>
    rw [step_eq_of_ok hE]
    cases op with
    | submitSensor sender timestamp m ph t hu =>
        simp only [exec] at hE
        obtain ⟨-, rfl⟩ := (submitEncryptedSensorData_ok_iff _ _ _ _ _ _ _ _).mp hE
        exact List.mem_append_left _ h
    | submitUpdate sender timestamp w =>
        simp only [exec] at hE
        obtain ⟨-, rfl⟩ := (submitEncryptedModelUpdate_ok_iff _ _ _ _ _).mp hE
        exact List.mem_append_left _ h
    | reqAgg updateIds context reqId =>
        simp only [exec] at hE
        obtain ⟨-, rfl⟩ := (requestAggregationDecryption_ok_iff _ _ _ _ _).mp hE
        exact List.mem_append_left _ h
    | reqSugg beneficiary enc reqId =>
        simp only [exec, requestSuggestionDecryption_eq, Except.ok.injEq] at hE
        subst hE
        exact List.mem_append_left _ h
    | decAgg reqId c p =>
        simp only [exec] at hE
        obtain ⟨-, -, rfl⟩ := (decryptAggregatedModel_ok_iff _ _ _ _ _ _).mp hE
        exact List.mem_append_left _ h
    | decSugg reqId c p =>
        simp only [exec] at hE
        obtain ⟨-, -, rfl⟩ := (decryptSuggestion_ok_iff _ _ _ _ _ _).mp hE
        exact List.mem_append_left _ h

/-- A beneficiary's suggestion slot is still at its default unless a
`SuggestionDecrypted` event for that beneficiary is in the log. -/
def suggestionDefaultInvariant (b : Nat) (st : YieldState) : Prop :=
  getSuggestion st b = ("", false) ∨ Event.SuggestionDecrypted b ∈ st.events

theorem suggestionDefaultInvariant_step (vp : ProofOracle) (op : Op) (st : YieldState)
    (b : Nat) (h : suggestionDefaultInvariant b st) :
    suggestionDefaultInvariant b (step vp st op) := by
  rcases h with h | h
  · cases hE : exec vp op st with
    | error msg => rw [step_eq_of_error hE]; exact Or.inl h
    | ok st' =>
      rw [step_eq_of_ok hE]
      cases op with
      | submitSensor sender timestamp m ph t hu =>
          simp only [exec] at hE
          obtain ⟨-, rfl⟩ := (submitEncryptedSensorData_ok_iff _ _ _ _ _ _ _ _).mp hE
          exact Or.inl h
      | submitUpdate sender timestamp w =>
          simp only [exec] at hE
          obtain ⟨-, rfl⟩ := (submitEncryptedModelUpdate_ok_iff _ _ _ _ _).mp hE
          exact Or.inl h
      | reqAgg updateIds context reqId =>
          simp only [exec] at hE
          obtain ⟨-, rfl⟩ := (requestAggregationDecryption_ok_iff _ _ _ _ _).mp hE
          exact Or.inl h
      | reqSugg beneficiary enc reqId =>
          simp only [exec, requestSuggestionDecryption_eq, Except.ok.injEq] at hE
          subst hE
          exact Or.inl h
      | decAgg reqId c p =>
          simp only [exec] at hE
          obtain ⟨-, -, rfl⟩ := (decryptAggregatedModel_ok_iff _ _ _ _ _ _).mp hE
          exact Or.inl h
      | decSugg reqId c p =>
          simp only [exec] at hE
          obtain ⟨-, -, rfl⟩ := (decryptSuggestion_ok_iff _ _ _ _ _ _).mp hE
          by_cases hb : b = mGet 0 st.requestToEntityId reqId % 2 ^ 160
          · subst hb
            exact Or.inr (List.mem_append_right _ (List.mem_singleton.mpr rfl))
          · refine Or.inl ?_
            unfold getSuggestion at h ⊢
            dsimp only at h ⊢
            rw [mGet_mSet_ne _ _ _ hb]
            exact h
  · exact Or.inr (events_monotone vp op st h)

/-- In every reachable state the `applied` flag of every suggestion slot
is `false`. -/
def appliedFalseInvariant (st : YieldState) : Prop :=
  ∀ b, (mGet defaultSuggestion st.suggestions b).applied = false

theorem appliedFalseInvariant_step (vp : ProofOracle) (op : Op) (st : YieldState)
    (h : appliedFalseInvariant st) : appliedFalseInvariant (step vp st op) := by
  cases hE : exec vp op st with
  | error msg => rw [step_eq_of_error hE]; exact h
  | ok st' =>
    rw [step_eq_of_ok hE]
    cases op with
    | submitSensor sender timestamp m ph t hu =>
        simp only [exec] at hE
        obtain ⟨-, rfl⟩ := (submitEncryptedSensorData_ok_iff _ _ _ _ _ _ _ _).mp hE
        exact h
    | submitUpdate sender timestamp w =>
        simp only [exec] at hE
        obtain ⟨-, rfl⟩ := (submitEncryptedModelUpdate_ok_iff _ _ _ _ _).mp hE
        exact h
    | reqAgg updateIds context reqId =>
        simp only [exec] at hE
        obtain ⟨-, rfl⟩ := (requestAggregationDecryption_ok_iff _ _ _ _ _).mp hE
        exact h
    | reqSugg beneficiary enc reqId =>
        simp only [exec, requestSuggestionDecryption_eq, Except.ok.injEq] at hE
        subst hE
        exact h
    | decAgg reqId c p =>
        simp only [exec] at hE
        obtain ⟨-, -, rfl⟩ := (decryptAggregatedModel_ok_iff _ _ _ _ _ _).mp hE
        exact h
    | decSugg reqId c p =>
        simp only [exec] at hE
        obtain ⟨-, -, rfl⟩ := (decryptSuggestion_ok_iff _ _ _ _ _ _).mp hE
        intro b
        show (mGet defaultSuggestion (mSet st.suggestions _ _) b).applied = false
        by_cases hb : b = mGet 0 st.requestToEntityId reqId % 2 ^ 160
        · subst hb; rw [mGet_mSet_self]
        · rw [mGet_mSet_ne _ _ _ hb]; exact h b

theorem suggestionDefaultInvariant_run (vp : ProofOracle) (ops : List Op)
    (st : YieldState) (b : Nat) (h : suggestionDefaultInvariant b st) :
    suggestionDefaultInvariant b (run vp ops st) := by
  induction ops generalizing st with
  | nil => exact h
  | cons op ops ih =>
      exact ih (step vp st op) (suggestionDefaultInvariant_step vp op st b h)

theorem appliedFalseInvariant_run (vp : ProofOracle) (ops : List Op) (st : YieldState)
    (h : appliedFalseInvariant st) : appliedFalseInvariant (run vp ops st) := by
  induction ops generalizing st with
  | nil => exact h
  | cons op ops ih => exact ih (step vp st op) (appliedFalseInvariant_step vp op st h)

/-! ## Claim C1 — resolution is not at-most-once -/

/-- C1 (counterexample): the claim "after a resolve succeeds for a
requestId, every subsequent resolve with that requestId fails with
AlreadyResolved" is false.  From deployment, a suggestion request binds
request id 5; a first `decryptSuggestion` with a valid proof succeeds,
and a second call for the same request id with a valid proof succeeds
again — the contract keeps no resolution state. -/
theorem resolve_twice_counterexample :
    (decryptSuggestion vpAll 5 ["a"] 0
        (run vpAll [Op.reqSugg 1 7 5] initialState)).isOk = true ∧
    (decryptSuggestion vpAll 5 ["b"] 0
        (step vpAll (run vpAll [Op.reqSugg 1 7 5] initialState)
          (Op.decSugg 5 ["a"] 0))).isOk = true := by
  decide

/-- C1 (amended): a successful resolve does not consume the request's
binding — the contract records no Resolved state — so a later call to the
same callback with the same requestId and an oracle-valid proof succeeds
again; resolution can happen any number of times. -/
theorem resolve_repeatable (vp : ProofOracle) (st st' : YieldState) (rid : Nat)
    (c c' : List String) (p p' : Nat) (hvp : vp rid c' p' = true) :
    (decryptAggregatedModel vp rid c p st = .ok st' →
      (decryptAggregatedModel vp rid c' p' st').isOk = true) ∧
    (decryptSuggestion vp rid c p st = .ok st' →
      (decryptSuggestion vp rid c' p' st').isOk = true) := by
  constructor
  · intro h
    obtain ⟨hctx, -, rfl⟩ := (decryptAggregatedModel_ok_iff _ _ _ _ _ _).mp h
    have h2 := (decryptAggregatedModel_ok_iff vp rid c' p'
      { st with events := st.events ++ [Event.AggregationDecrypted 0] } _).mpr
      ⟨hctx, hvp, rfl⟩
    rw [h2]
    rfl
  · intro h
    obtain ⟨hkey, -, rfl⟩ := (decryptSuggestion_ok_iff _ _ _ _ _ _).mp h
    have h2 := (decryptSuggestion_ok_iff vp rid c' p'
      { st with
        suggestions := mSet st.suggestions (mGet 0 st.requestToEntityId rid % 2 ^ 160)
          ⟨if c.length > 0 then c.getD 0 "" else "", false⟩
        events := st.events ++
          [Event.SuggestionDecrypted (mGet 0 st.requestToEntityId rid % 2 ^ 160)] } _).mpr
      ⟨hkey, hvp, rfl⟩
    rw [h2]
    rfl

/-- C1 witness: `resolve_repeatable` applied to a concrete run — request
id 5 bound to beneficiary 1, resolved once with payload `["c"]`, then
resolved again with payload `["d"]`. -/
theorem resolve_repeatable_witness :
    (decryptSuggestion vpAll 5 ["d"] 2
        (step vpAll (run vpAll [Op.reqSugg 1 7 5] initialState)
          (Op.decSugg 5 ["c"] 2))).isOk = true :=
  (resolve_repeatable vpAll (run vpAll [Op.reqSugg 1 7 5] initialState)
      (step vpAll (run vpAll [Op.reqSugg 1 7 5] initialState) (Op.decSugg 5 ["c"] 2))
      5 ["c"] ["d"] 2 2 rfl).2 rfl

/-! ## Claim C2 — a successful aggregate resolution writes no result -/

/-- C2 (counterexample): the claim "a successful `decryptAggregatedModel`
sets the singleton AggregateResult marker to resolved = true (one
ResultStore write before the state flips)" is false: from deployment, an
aggregation request binds request id 9; the callback succeeds, yet every
piece of contract storage is unchanged — there is no aggregate marker in
the contract and nothing is written. -/
theorem aggregate_resolution_no_write_counterexample :
    (decryptAggregatedModel vpAll 9 ["summary"] 0
        (run vpAll [Op.reqAgg [1] 3 9] initialState)).isOk = true ∧
    storageView (step vpAll (run vpAll [Op.reqAgg [1] 3 9] initialState)
        (Op.decAgg 9 ["summary"] 0)) =
      storageView (run vpAll [Op.reqAgg [1] 3 9] initialState) := by
  decide

/-- C2 (amended): a successful `decryptAggregatedModel` performs no
storage write at all — every storage field is unchanged — and its only
effect is emitting `AggregationDecrypted(0)`. -/
theorem aggregate_resolution_storage_unchanged (vp : ProofOracle) (rid : Nat)
    (c : List String) (p : Nat) (st st' : YieldState)
    (h : decryptAggregatedModel vp rid c p st = .ok st') :
    storageView st' = storageView st ∧
    st'.events = st.events ++ [Event.AggregationDecrypted 0] := by
  obtain ⟨-, -, rfl⟩ := (decryptAggregatedModel_ok_iff _ _ _ _ _ _).mp h
  exact ⟨rfl, rfl⟩

/-- C2 witness: `aggregate_resolution_storage_unchanged` applied to the
concrete successful resolution of aggregation request id 9. -/
theorem aggregate_resolution_storage_unchanged_witness :
    storageView (step vpAll (run vpAll [Op.reqAgg [1] 3 9] initialState)
        (Op.decAgg 9 ["s"] 0)) =
      storageView (run vpAll [Op.reqAgg [1] 3 9] initialState) ∧
    (step vpAll (run vpAll [Op.reqAgg [1] 3 9] initialState)
        (Op.decAgg 9 ["s"] 0)).events =
      (run vpAll [Op.reqAgg [1] 3 9] initialState).events ++
        [Event.AggregationDecrypted 0] :=
  aggregate_resolution_storage_unchanged vpAll 9 ["s"] 0
    (run vpAll [Op.reqAgg [1] 3 9] initialState)
    (step vpAll (run vpAll [Op.reqAgg [1] 3 9] initialState) (Op.decAgg 9 ["s"] 0))
    rfl

/-! ## Claim C3 — aggregation request preconditions -/

/-- C3 (counterexample): the claim "requestAggregationDecryption fails
with UnknownEntity when some id does not refer to a submitted model
update" is false: from deployment — where no model update exists at all —
a request over update id 5 succeeds. -/
theorem unknown_entity_request_succeeds_counterexample :
    initialState.modelUpdates = [] ∧
    (requestAggregationDecryption [5] 1 9 initialState).isOk = true := by
  decide

/-- C3 (amended): `requestAggregationDecryption` fails exactly on an
empty batch — error "empty", storing no binding — and on any non-empty
batch it succeeds and stores the binding, with no existence check on the
referenced update ids (an absent id merely contributes the zero record's
ciphertext handle to the forwarded batch). -/
theorem requestAggregation_fails_iff_empty (vp : ProofOracle) (updateIds : List Nat)
    (context reqId : Nat) (st : YieldState) :
    (updateIds = [] →
      requestAggregationDecryption updateIds context reqId st = .error "empty" ∧
      step vp st (Op.reqAgg updateIds context reqId) = st) ∧
    (updateIds ≠ [] →
      (requestAggregationDecryption updateIds context reqId st).isOk = true ∧
      mGet 0 (step vp st (Op.reqAgg updateIds context reqId)).requestToContext reqId =
        context ∧
      mGet 0 (step vp st (Op.reqAgg updateIds context reqId)).requestToEntityId reqId =
        0) := by
  constructor
  · rintro rfl
    refine ⟨requestAggregationDecryption_empty _ _ _, ?_⟩
    exact @step_eq_of_error vp (Op.reqAgg [] context reqId) st "empty"
      (requestAggregationDecryption_empty context reqId st)
  · intro hne
    have h := (requestAggregationDecryption_ok_iff updateIds context reqId st _).mpr
      ⟨hne, rfl⟩
    refine ⟨by rw [h]; rfl, ?_, ?_⟩
    · rw [@step_eq_of_ok vp (Op.reqAgg updateIds context reqId) st _ h]
      exact mGet_mSet_self _ _ _ _
    · rw [@step_eq_of_ok vp (Op.reqAgg updateIds context reqId) st _ h]
      exact mGet_mSet_self _ _ _ _

/-- C3 witness: `requestAggregation_fails_iff_empty` applied to a
concrete empty batch and to the concrete non-empty batch `[5]`, both from
deployment. -/
theorem requestAggregation_fails_iff_empty_witness :
    (requestAggregationDecryption [] 1 9 initialState = .error "empty" ∧
      step vpAll initialState (Op.reqAgg [] 1 9) = initialState) ∧
    ((requestAggregationDecryption [5] 1 9 initialState).isOk = true ∧
      mGet 0 (step vpAll initialState (Op.reqAgg [5] 1 9)).requestToContext 9 = 1 ∧
      mGet 0 (step vpAll initialState (Op.reqAgg [5] 1 9)).requestToEntityId 9 = 0) :=
  ⟨(requestAggregation_fails_iff_empty vpAll [] 1 9 initialState).1 rfl,
    (requestAggregation_fails_iff_empty vpAll [5] 1 9 initialState).2 (by decide)⟩

/-! ## Claim C4 — unknown request ids are rejected without mutation -/

/-- C4: a request id never bound by any prior request call is rejected by
both callbacks with error "invalid", and the whole state — in particular
the suggestions mapping — is left unchanged. -/
theorem unknown_request_rejected (vp : ProofOracle) (ops : List Op) (rid : Nat)
    (c : List String) (p : Nat) (h : rid ∉ issuedIds ops) :
    decryptAggregatedModel vp rid c p (run vp ops initialState) = .error "invalid" ∧
    decryptSuggestion vp rid c p (run vp ops initialState) = .error "invalid" ∧
    step vp (run vp ops initialState) (Op.decAgg rid c p) = run vp ops initialState ∧
    step vp (run vp ops initialState) (Op.decSugg rid c p) = run vp ops initialState := by
  obtain ⟨hctx, hent⟩ := bindings_zero_of_not_issued vp ops rid h
  have h1 := decryptAggregatedModel_invalid vp rid c p _ hctx
  have h2 := decryptSuggestion_invalid vp rid c p _ hent
  exact ⟨h1, h2, @step_eq_of_error vp (Op.decAgg rid c p) _ _ h1,
    @step_eq_of_error vp (Op.decSugg rid c p) _ _ h2⟩

/-- C4 witness: `unknown_request_rejected` for request id 99 after a run
that bound only request id 5. -/
theorem unknown_request_rejected_witness :
    decryptAggregatedModel vpAll 99 ["x"] 0 (run vpAll [Op.reqSugg 1 7 5] initialState) =
      .error "invalid" ∧
    decryptSuggestion vpAll 99 ["x"] 0 (run vpAll [Op.reqSugg 1 7 5] initialState) =
      .error "invalid" ∧
    step vpAll (run vpAll [Op.reqSugg 1 7 5] initialState) (Op.decAgg 99 ["x"] 0) =
      run vpAll [Op.reqSugg 1 7 5] initialState ∧
    step vpAll (run vpAll [Op.reqSugg 1 7 5] initialState) (Op.decSugg 99 ["x"] 0) =
      run vpAll [Op.reqSugg 1 7 5] initialState :=
  unknown_request_rejected vpAll [Op.reqSugg 1 7 5] 99 ["x"] 0 (by decide)

/-! ## Claim C5 — proof failure leaves the request pending -/

/-- C5: with the oracle rejecting `(rid, c, p)` but accepting
`(rid, c', p')`, a resolve call with the bad proof on a pending request
fails at `checkSignatures` and leaves the whole state (binding included)
unchanged, and the resolve with the good proof then succeeds — for both
callbacks. -/
theorem invalid_proof_leaves_pending (vp : ProofOracle) (st : YieldState) (rid : Nat)
    (c c' : List String) (p p' : Nat)
    (hbad : vp rid c p = false) (hgood : vp rid c' p' = true) :
    (mGet 0 st.requestToContext rid ≠ 0 →
      decryptAggregatedModel vp rid c p st = .error "checkSignatures" ∧
      step vp st (Op.decAgg rid c p) = st ∧
      (decryptAggregatedModel vp rid c' p' st).isOk = true) ∧
    (mGet 0 st.requestToEntityId rid ≠ 0 →
      decryptSuggestion vp rid c p st = .error "checkSignatures" ∧
      step vp st (Op.decSugg rid c p) = st ∧
      (decryptSuggestion vp rid c' p' st).isOk = true) := by
  constructor
  · intro hctx
    have herr : decryptAggregatedModel vp rid c p st = .error "checkSignatures" := by
      unfold decryptAggregatedModel
      dsimp only
      split
      · rename_i h0; exact absurd h0 hctx
      · split
        · rename_i hvp; rw [hbad] at hvp; exact Bool.noConfusion hvp
        · rfl
    refine ⟨herr, @step_eq_of_error vp (Op.decAgg rid c p) st _ herr, ?_⟩
    have hok := (decryptAggregatedModel_ok_iff vp rid c' p' st _).mpr ⟨hctx, hgood, rfl⟩
    rw [hok]
    rfl
  · intro hkey
    have herr : decryptSuggestion vp rid c p st = .error "checkSignatures" := by
      unfold decryptSuggestion
      dsimp only
      split
      · rename_i h0; exact absurd h0 hkey
      · split
        · rename_i hvp; rw [hbad] at hvp; exact Bool.noConfusion hvp
        · rfl
    refine ⟨herr, @step_eq_of_error vp (Op.decSugg rid c p) st _ herr, ?_⟩
    have hok := (decryptSuggestion_ok_iff vp rid c' p' st _).mpr ⟨hkey, hgood, rfl⟩
    rw [hok]
    rfl

/-- C5 witness: `invalid_proof_leaves_pending` under the oracle `vpOne`
(which accepts exactly proof 1), on a pending aggregation request (id 9)
and a pending suggestion request (id 5). -/
theorem invalid_proof_leaves_pending_witness :
    (decryptAggregatedModel vpOne 9 ["x"] 0 (run vpOne [Op.reqAgg [1] 3 9] initialState) =
        .error "checkSignatures" ∧
      step vpOne (run vpOne [Op.reqAgg [1] 3 9] initialState) (Op.decAgg 9 ["x"] 0) =
        run vpOne [Op.reqAgg [1] 3 9] initialState ∧
      (decryptAggregatedModel vpOne 9 ["x"] 1
          (run vpOne [Op.reqAgg [1] 3 9] initialState)).isOk = true) ∧
    (decryptSuggestion vpOne 5 ["x"] 0 (run vpOne [Op.reqSugg 1 7 5] initialState) =
        .error "checkSignatures" ∧
      step vpOne (run vpOne [Op.reqSugg 1 7 5] initialState) (Op.decSugg 5 ["x"] 0) =
        run vpOne [Op.reqSugg 1 7 5] initialState ∧
      (decryptSuggestion vpOne 5 ["x"] 1
          (run vpOne [Op.reqSugg 1 7 5] initialState)).isOk = true) :=
  ⟨(invalid_proof_leaves_pending vpOne (run vpOne [Op.reqAgg [1] 3 9] initialState)
      9 ["x"] ["x"] 0 1 (by decide) (by decide)).1 (by decide),
    (invalid_proof_leaves_pending vpOne (run vpOne [Op.reqSugg 1 7 5] initialState)
      5 ["x"] ["x"] 0 1 (by decide) (by decide)).2 (by decide)⟩

/-! ## Claim C6 — successful suggestion resolution stores the advice -/

/-- The advice the callback decodes equals `c.getD 0 ""`: the first
element when the payload is non-empty, `""` when it is empty. -/
theorem advice_eq_getD (c : List String) :
    (if c.length > 0 then c.getD 0 "" else "") = c.getD 0 "" := by
  cases c <;> simp

/-- C6: a suggestion resolution with a valid proof, for a request whose
stored binding is a non-zero address `b`, succeeds and stores
`{advice := first payload element (or "" for an empty payload),
applied := false}` under `b`, replacing any prior record for `b` and
leaving every other beneficiary's record unchanged; an empty payload
still succeeds and stores `("", false)`. -/
theorem suggestion_resolution_stores_advice (vp : ProofOracle) (st : YieldState)
    (rid b : Nat) (c : List String) (p : Nat)
    (hb : mGet 0 st.requestToEntityId rid = b) (hb0 : b ≠ 0) (hlt : b < 2 ^ 160)
    (hvp : vp rid c p = true) :
    (decryptSuggestion vp rid c p st).isOk = true ∧
    getSuggestion (step vp st (Op.decSugg rid c p)) b = (c.getD 0 "", false) ∧
    (∀ b', b' ≠ b →
      getSuggestion (step vp st (Op.decSugg rid c p)) b' = getSuggestion st b') ∧
    (c = [] → getSuggestion (step vp st (Op.decSugg rid c p)) b = ("", false)) := by
  have hkey : mGet 0 st.requestToEntityId rid ≠ 0 := by rw [hb]; exact hb0
  have hok := (decryptSuggestion_ok_iff vp rid c p st _).mpr ⟨hkey, hvp, rfl⟩
  have hstep := @step_eq_of_ok vp (Op.decSugg rid c p) st _ hok
  have hmod : mGet 0 st.requestToEntityId rid % 2 ^ 160 = b := by
    rw [hb]; exact Nat.mod_eq_of_lt hlt
  refine ⟨by rw [hok]; rfl, ?_, ?_, ?_⟩
  · rw [hstep]
    unfold getSuggestion
    dsimp only
    rw [hmod, mGet_mSet_self, advice_eq_getD]
  · intro b' hne
    rw [hstep]
    unfold getSuggestion
    dsimp only
    rw [hmod, mGet_mSet_ne _ _ _ hne]
  · rintro rfl
    rw [hstep]
    unfold getSuggestion
    dsimp only
    rw [hmod, mGet_mSet_self]
    simp

/-- C6 witness: `suggestion_resolution_stores_advice` on the concrete
suggestion request binding id 5 to beneficiary 2, resolved with payload
`["irrigate"]`; beneficiary 3's record is untouched. -/
theorem suggestion_resolution_stores_advice_witness :
    (decryptSuggestion vpAll 5 ["irrigate"] 0
        (run vpAll [Op.reqSugg 2 7 5] initialState)).isOk = true ∧
    getSuggestion (step vpAll (run vpAll [Op.reqSugg 2 7 5] initialState)
        (Op.decSugg 5 ["irrigate"] 0)) 2 = ("irrigate", false) ∧
    getSuggestion (step vpAll (run vpAll [Op.reqSugg 2 7 5] initialState)
        (Op.decSugg 5 ["irrigate"] 0)) 3 =
      getSuggestion (run vpAll [Op.reqSugg 2 7 5] initialState) 3 :=
  ⟨(suggestion_resolution_stores_advice vpAll (run vpAll [Op.reqSugg 2 7 5] initialState)
      5 2 ["irrigate"] 0 (by decide) (by decide) (by decide) rfl).1,
    (suggestion_resolution_stores_advice vpAll (run vpAll [Op.reqSugg 2 7 5] initialState)
      5 2 ["irrigate"] 0 (by decide) (by decide) (by decide) rfl).2.1,
    ((suggestion_resolution_stores_advice vpAll (run vpAll [Op.reqSugg 2 7 5] initialState)
      5 2 ["irrigate"] 0 (by decide) (by decide) (by decide) rfl).2.2.1) 3 (by decide)⟩

/-! ## Claim C7 — submission ids are 1,2,3,… per registry, independently -/

/-- C7: over any run from deployment, the sensor ids assigned (in order)
are exactly `1, 2, …, sensorUploadCount` and the model-update ids are
exactly `1, 2, …, modelUpdateCount` — each stream strictly increasing
from 1 with no reuse — and appending a submission of the one kind never
changes the id stream of the other kind. -/
theorem submission_ids_monotone (vp : ProofOracle) (ops : List Op) :
    sensorIdsOf (run vp ops initialState).events =
      List.range' 1 (run vp ops initialState).sensorUploadCount ∧
    updateIdsOf (run vp ops initialState).events =
      List.range' 1 (run vp ops initialState).modelUpdateCount ∧
    List.Pairwise (· < ·) (sensorIdsOf (run vp ops initialState).events) ∧
    List.Pairwise (· < ·) (updateIdsOf (run vp ops initialState).events) ∧
    (∀ sender timestamp w,
      sensorIdsOf (run vp (ops ++ [Op.submitUpdate sender timestamp w])
          initialState).events =
        sensorIdsOf (run vp ops initialState).events) ∧
    (∀ sender timestamp m ph t h,
      updateIdsOf (run vp (ops ++ [Op.submitSensor sender timestamp m ph t h])
          initialState).events =
        updateIdsOf (run vp ops initialState).events) := by
  obtain ⟨h1, h2⟩ := assignedInvariant_run vp ops initialState assignedInvariant_initial
  refine ⟨h1, h2, ?_, ?_, ?_, ?_⟩
  · rw [h1]; exact List.pairwise_lt_range' 1 _
  · rw [h2]; exact List.pairwise_lt_range' 1 _
  · intro sender timestamp w
    rw [run_append]
    exact sensorIdsOf_step_submitUpdate vp _ sender timestamp w
  · intro sender timestamp m ph t h
    rw [run_append]
    exact updateIdsOf_step_submitSensor vp _ sender timestamp m ph t h

/-! ## Claim C8 — beneficiaries without a resolution read the default -/

/-- C8: for a beneficiary for which no suggestion resolution ever
succeeded over the run (no `SuggestionDecrypted` event for it),
`getSuggestion` — a pure view function — returns `("", false)`. -/
theorem getSuggestion_default_without_resolution (vp : ProofOracle) (ops : List Op)
    (b : Nat) (h : Event.SuggestionDecrypted b ∉ (run vp ops initialState).events) :
    getSuggestion (run vp ops initialState) b = ("", false) := by
  rcases suggestionDefaultInvariant_run vp ops initialState b (Or.inl rfl) with hd | he
  · exact hd
  · exact absurd he h

/-- C8 witness: after a run in which only beneficiary 2 got a resolved
suggestion, beneficiary 3 still reads `("", false)`. -/
theorem getSuggestion_default_without_resolution_witness :
    getSuggestion (run vpAll [Op.reqSugg 2 7 5, Op.decSugg 5 ["x"] 0] initialState) 3 =
      ("", false) :=
  getSuggestion_default_without_resolution vpAll
    [Op.reqSugg 2 7 5, Op.decSugg 5 ["x"] 0] 3 (by decide)

/-! ## Claim C9 — wrong-kind callbacks are rejected via zero sentinels -/

/-- C9: after an aggregation request binds `rid` (entity sentinel 0), as
long as no later request rebinds `rid`, `decryptSuggestion` on `rid`
fails with "invalid"; dually, after a suggestion request binds `rid`
(context sentinel 0), `decryptAggregatedModel` on `rid` fails.  In the
degenerate cases — an aggregation request issued with context 0, or a
suggestion request for beneficiary address 0 — both callbacks fail, so
the request can never be resolved at all. -/
theorem wrong_kind_callback_rejected (vp : ProofOracle) (st : YieldState)
    (updateIds : List Nat) (context beneficiary enc rid : Nat) (more : List Op)
    (c : List String) (p : Nat)
    (hne : updateIds ≠ []) (hnr : rid ∉ issuedIds more) :
    decryptSuggestion vp rid c p
      (run vp more (step vp st (Op.reqAgg updateIds context rid))) = .error "invalid" ∧
    (context = 0 →
      decryptAggregatedModel vp rid c p
        (run vp more (step vp st (Op.reqAgg updateIds context rid))) =
          .error "invalid") ∧
    decryptAggregatedModel vp rid c p
      (run vp more (step vp st (Op.reqSugg beneficiary enc rid))) = .error "invalid" ∧
    (beneficiary = 0 →
      decryptSuggestion vp rid c p
        (run vp more (step vp st (Op.reqSugg beneficiary enc rid))) =
          .error "invalid") := by
  have hreqA := (requestAggregationDecryption_ok_iff updateIds context rid st _).mpr
    ⟨hne, rfl⟩
  have hstepA := @step_eq_of_ok vp (Op.reqAgg updateIds context rid) st _ hreqA
  obtain ⟨hAc, hAe⟩ := bindings_preserved_run vp more
    (step vp st (Op.reqAgg updateIds context rid)) rid hnr
  have hAe0 : mGet 0 (run vp more
      (step vp st (Op.reqAgg updateIds context rid))).requestToEntityId rid = 0 := by
    rw [hAe, hstepA]; exact mGet_mSet_self _ _ _ _
  have hAcCtx : mGet 0 (run vp more
      (step vp st (Op.reqAgg updateIds context rid))).requestToContext rid = context := by
    rw [hAc, hstepA]; exact mGet_mSet_self _ _ _ _
  have hstepS := @step_eq_of_ok vp (Op.reqSugg beneficiary enc rid) st _
    (requestSuggestionDecryption_eq beneficiary enc rid st)
  obtain ⟨hSc, hSe⟩ := bindings_preserved_run vp more
    (step vp st (Op.reqSugg beneficiary enc rid)) rid hnr
  have hSc0 : mGet 0 (run vp more
      (step vp st (Op.reqSugg beneficiary enc rid))).requestToContext rid = 0 := by
    rw [hSc, hstepS]; exact mGet_mSet_self _ _ _ _
  have hSeB : mGet 0 (run vp more
      (step vp st (Op.reqSugg beneficiary enc rid))).requestToEntityId rid =
      beneficiary := by
    rw [hSe, hstepS]; exact mGet_mSet_self _ _ _ _
  refine ⟨decryptSuggestion_invalid vp rid c p _ hAe0, ?_,
    decryptAggregatedModel_invalid vp rid c p _ hSc0, ?_⟩
  · intro hc0
    exact decryptAggregatedModel_invalid vp rid c p _ (by rw [hAcCtx, hc0])
  · intro hb0
    exact decryptSuggestion_invalid vp rid c p _ (by rw [hSeB, hb0])

/-- C9 witness: `wrong_kind_callback_rejected` on a concrete aggregation
request with context 0 and a concrete suggestion request for beneficiary
0, both binding request id 9, followed by an unrelated submission. -/
theorem wrong_kind_callback_rejected_witness :
    decryptSuggestion vpAll 9 ["x"] 0 (run vpAll [Op.submitSensor 1 10 1 2 3 4]
      (step vpAll initialState (Op.reqAgg [1] 0 9))) = .error "invalid" ∧
    decryptAggregatedModel vpAll 9 ["x"] 0 (run vpAll [Op.submitSensor 1 10 1 2 3 4]
      (step vpAll initialState (Op.reqAgg [1] 0 9))) = .error "invalid" ∧
    decryptAggregatedModel vpAll 9 ["x"] 0 (run vpAll [Op.submitSensor 1 10 1 2 3 4]
      (step vpAll initialState (Op.reqSugg 0 7 9))) = .error "invalid" ∧
    decryptSuggestion vpAll 9 ["x"] 0 (run vpAll [Op.submitSensor 1 10 1 2 3 4]
      (step vpAll initialState (Op.reqSugg 0 7 9))) = .error "invalid" :=
  have H := wrong_kind_callback_rejected vpAll initialState [1] 0 0 7 9
    [Op.submitSensor 1 10 1 2 3 4] ["x"] 0 (by decide) (by decide)
  ⟨H.1, H.2.1 rfl, H.2.2.1, H.2.2.2 rfl⟩

/-! ## Claim C10 — the applied flag is never set -/

/-- C10: in every state reachable from deployment, the `applied`
component read by `getSuggestion` is `false` for every beneficiary — no
operation of the contract ever sets it to `true`. -/
theorem applied_always_false (vp : ProofOracle) (ops : List Op) (b : Nat) :
    (getSuggestion (run vp ops initialState) b).2 = false :=
  appliedFalseInvariant_run vp ops initialState (fun _ => rfl) b
